import Mathlib

/-!
Shallow embedding of the virtual-list renderer (src/vlist.js, with the
alternate default row factory of the unnamed variant) and proofs about its
windowing, recycling and reclamation behaviour.

DOM nodes are modelled as entries of a heap `List (Nat × NodeData)` keyed by
a node identity (reference identity in the source); the container's child
list is a `List Nat` of node ids whose head position 0 is the scroller.
Styles not observed by any property (position, width, overflow, opacity)
are not carried in `NodeData`.
-/

set_option maxRecDepth 8000

namespace VirtualList

/-- A raw backing item, as stored in `config.items`: a JS string, a pre-built
DOM element (identified by its node id), or one of the falsy non-string
values the code may meet (`null`, `0`, `false`).  An absent (`undefined`)
item is the `none` case of `items.get? i`. -/
inductive Item where
  | text : String → Item
  | elem : Nat → Item
  | nullItem : Item
  | numZero : Item
  | boolFalse : Item
deriving DecidableEq

/-- JS truthiness of an item: `this.items[i]` as a condition.  A string is
truthy iff non-empty; an element is truthy; `null`, `0`, `false` are falsy. -/
def itemTruthy : Item → Bool
  | Item.text s => s != ""
  | Item.elem _ => true
  | _ => false

/-- `typeof items[i] === 'string'`. -/
def itemIsString : Item → Bool
  | Item.text _ => true
  | _ => false

def itemStr : Item → String
  | Item.text s => s
  | _ => ""

def itemElemId : Item → Nat
  | Item.elem n => n
  | _ => 0

/-- `isElemItem o = true` iff the (optional) item is a pre-built DOM element. -/
def isElemItem : Option Item → Bool
  | some (Item.elem _) => true
  | _ => false

/-- The observable data of one DOM node: its single text child (if any), the
`display` style, the `height` style in px, the `top` style in px, and its
class list. -/
structure NodeData where
  textChild : Option String
  display : String
  heightPx : Option Nat
  top : Option Nat
  classes : List String
deriving DecidableEq

/-- One entry of `itemsInContainer`: `{status: 0/1, node: DOMNode}`;
status 0 = hidden, pending deletion; status 1 = displayed. -/
structure Entry where
  status : Nat
  node : Nat
deriving DecidableEq

/-- The mutable state of one `VirtualList` instance plus its closure
variables: the `itemsInContainer` table, the container's children (node ids,
the scroller is id 0), the node heap, the allocator for fresh node ids, and
the closure variables `lastRepaintY` (the re-plan anchor, `none` while
still `undefined`) and `lastScrolled`. -/
structure VListState where
  table : List (Nat × Entry)
  children : List Nat
  heap : List (Nat × NodeData)
  nextId : Nat
  lastRepaintY : Option Nat
  lastScrolled : Nat
deriving DecidableEq

/-- The recognized construction options (`config`); `w` is ignored here as it
only affects a style string. -/
structure VConfig where
  h : Nat
  itemHeight : Nat
  items : List Item
  totalRowsOpt : Option Nat
  itemBufferOpt : Option Nat
deriving DecidableEq

/-- JS `a || b` on an optional number: `0` is falsy. -/
def jsOrNat : Option Nat → Nat → Nat
  | none, d => d
  | some n, d => if n = 0 then d else n

/-- `this.totalRows = config.totalRows || this.items.length`. -/
def totalRows (cfg : VConfig) : Nat :=
  jsOrNat cfg.totalRowsOpt cfg.items.length

/-- Ceiling division, `Math.ceil (a / b)` for naturals. -/
def ceilDiv (a b : Nat) : Nat := (a + b - 1) / b

/-- `screenItemsLen = Math.ceil(config.h / itemHeight)`. -/
def screenItemsLen (cfg : VConfig) : Nat := ceilDiv cfg.h cfg.itemHeight

/-- `cachedItemsLen = config.itemBuffer ? config.itemBuffer : screenItemsLen * 3`. -/
def cachedItemsLen (cfg : VConfig) : Nat :=
  jsOrNat cfg.itemBufferOpt (screenItemsLen cfg * 3)

/-- `maxBuffer = screenItemsLen * itemHeight`. -/
def maxBuffer (cfg : VConfig) : Nat := screenItemsLen cfg * cfg.itemHeight

/-- First binding of a key in an association list (JS object indexing; the
tables we build keep keys unique). -/
def afind {α : Type} : List (Nat × α) → Nat → Option α
  | [], _ => none
  | p :: t, k => if p.1 = k then some p.2 else afind t k

/-- Update the node with the given id in the heap (mutation of a DOM node
through a reference). -/
def hset (h : List (Nat × NodeData)) (id : Nat) (f : NodeData → NodeData) :
    List (Nat × NodeData) :=
  h.map (fun p => if p.1 = id then (p.1, f p.2) else p)

/-- JS object assignment `itemsInContainer[k] = v`: replace the binding if
the key is present, else add it. -/
def tput (t : List (Nat × Entry)) (k : Nat) (v : Entry) : List (Nat × Entry) :=
  match afind t k with
  | some _ => t.map (fun p => if p.1 = k then (k, v) else p)
  | none => t ++ [(k, v)]

/-- `document.createElement('div')` followed by populating it: allocate a
fresh node id bound to the given data. -/
def allocNode (s : VListState) (nd : NodeData) : Nat × VListState :=
  (s.nextId,
   { s with heap := s.heap ++ [(s.nextId, nd)], nextId := s.nextId + 1 })

/-- The blank div of the falsy/absent branch of `generatorFn` in vlist.js:
`document.createElement('div')` with `style.height = itemHeight + 'px'`. -/
def blankDiv (cfg : VConfig) : NodeData :=
  { textChild := none, display := "", heightPx := some cfg.itemHeight,
    top := none, classes := [] }

/-- The div built for a string item in vlist.js: height style plus a text
child holding the string. -/
def textDiv (cfg : VConfig) (str : String) : NodeData :=
  { textChild := some str, display := "", heightPx := some cfg.itemHeight,
    top := none, classes := [] }

/-- Default `VirtualList.prototype.generatorFn` of src/vlist.js:
`if (this.items && this.items[i]) { string ? wrap in a div with a text child
: use the element directly } else { blank div }`.  `this.items` is always an
array (truthy), so only the `this.items[i]` truthiness test matters. -/
def generatorFn (cfg : VConfig) (s : VListState) (i : Nat) : Nat × VListState :=
  match cfg.items[i]? with
  | some it =>
      if itemTruthy it then
        if itemIsString it then allocNode s (textDiv cfg (itemStr it))
        else (itemElemId it, s)
      else allocNode s (blankDiv cfg)
  | none => allocNode s (blankDiv cfg)

/-- `classList.add` adds the class only when not already present. -/
def addClass (cs : List String) (c : String) : List String :=
  if c ∈ cs then cs else cs ++ [c]

/-- `VirtualList.prototype.createRow` of src/vlist.js: run the row factory,
then set class `vrow`, `display = ''`, `top = i * itemHeight` (position
`absolute` is not carried in `NodeData`), and store
`itemsInContainer[i] = {status: 1, node: item}`. -/
def createRow (cfg : VConfig) (s : VListState) (i : Nat) : Nat × VListState :=
  let r := generatorFn cfg s i
  let s2 : VListState :=
    { r.2 with
      heap := hset r.2.heap r.1 (fun nd =>
        { nd with classes := addClass nd.classes "vrow", display := "",
                  top := some (i * cfg.itemHeight) }) }
  (r.1, { s2 with table := tput s2.table i { status := 1, node := r.1 } })

/-- The marking phase of `_renderChunk`: every current table entry gets
status 0 and its node `display = 'none'`. -/
def markAll (s : VListState) : VListState :=
  { s with
    table := s.table.map (fun p => (p.1, { p.2 with status := 0 })),
    heap := s.table.foldl
      (fun h p => hset h p.2.node (fun nd => { nd with display := "none" }))
      s.heap }

/-- The loop `for (var i = from; i < finalItem; i++)
fragment.appendChild(this.createRow(i))`: create `n` rows starting at `frm`,
returning the fragment's node ids in order together with the updated state. -/
def renderRows (cfg : VConfig) (s : VListState) (frm : Nat) :
    Nat → List Nat × VListState
  | 0 => ([], s)
  | Nat.succ m =>
      let r := createRow cfg s frm
      let rest := renderRows cfg r.2 (frm + 1) m
      (r.1 :: rest.1, rest.2)

/-- `node.appendChild(fragment)`: each fragment node is moved to the end of
the container's child list (a DOM node already present is moved, not
duplicated). -/
def appendFrag (children : List Nat) (frag : List Nat) : List Nat :=
  frag.foldl (fun ch id => ch.filter (fun c => c ≠ id) ++ [id]) children

/-- `finalItem` of `_renderChunk`: `from + cachedItemsLen`, clamped to
`totalRows`. -/
def lastOf (cfg : VConfig) (frm : Nat) : Nat :=
  if frm + cachedItemsLen cfg > totalRows cfg then totalRows cfg
  else frm + cachedItemsLen cfg

/-- `VirtualList.prototype._renderChunk` of src/vlist.js: clamp the end of
the range, mark and hide every current entry, create one row per index of
`[from, finalItem)` into a fragment, then append the fragment to the
container. -/
def renderChunk (cfg : VConfig) (s : VListState) (frm : Nat) : VListState :=
  let s1 := markAll s
  let r := renderRows cfg s1 frm (lastOf cfg frm - frm)
  { r.2 with children := appendFrag r.2.children r.1 }

/-- JS truthiness of the closure variable `lastRepaintY`: falsy while still
`undefined` and when it holds 0. -/
def jsFalsyNum : Option Nat → Bool
  | none => true
  | some n => n == 0

/-- `Math.abs(scrollTop - lastRepaintY)` (only evaluated when the anchor is
set; the `getD` default is dead code guarded by short-circuiting). -/
def displacement (s : VListState) (scrollTop : Nat) : Nat :=
  ((scrollTop : Int) - ((s.lastRepaintY.getD 0 : Nat) : Int)).natAbs

/-- The re-plan condition of `onScroll`:
`!lastRepaintY || Math.abs(scrollTop - lastRepaintY) > maxBuffer`. -/
def scrollTriggers (cfg : VConfig) (s : VListState) (scrollTop : Nat) : Bool :=
  jsFalsyNum s.lastRepaintY || decide (maxBuffer cfg < displacement s scrollTop)

/-- `var first = parseInt(scrollTop / itemHeight) - screenItemsLen`, then
`first < 0 ? 0 : first`. -/
def plannedFirst (cfg : VConfig) (scrollTop : Nat) : Nat :=
  if ((scrollTop / cfg.itemHeight : Nat) : Int) - ((screenItemsLen cfg : Nat) : Int) < 0
  then 0
  else (((scrollTop / cfg.itemHeight : Nat) : Int) - ((screenItemsLen cfg : Nat) : Int)).toNat

/-- The `onScroll` handler of src/vlist.js: re-plan (and update the anchor)
when the trigger condition holds, then record `lastScrolled = now` in every
case. -/
def onScroll (cfg : VConfig) (s : VListState) (scrollTop now : Nat) : VListState :=
  let s1 :=
    if scrollTriggers cfg s scrollTop then
      { renderChunk cfg s (plannedFirst cfg scrollTop) with
        lastRepaintY := some scrollTop }
    else s
  { s1 with lastScrolled := now }

/-- One step of the reclamation sweep's `forEach`, applied to a bad
(status 0) entry: `container.removeChild(badItem.node)`, reset the removed
node's `display`, and `delete itemsInContainer[index]`. -/
def rmStep (st : VListState) (p : Nat × Entry) : VListState :=
  { st with
    children := st.children.filter (fun c => c ≠ p.2.node),
    heap := hset st.heap p.2.node (fun nd => { nd with display := "" }),
    table := st.table.filter (fun q => q.1 ≠ p.1) }

/-- The body of the `rmNodeInterval` callback of src/vlist.js, fired at time
`now`: when more than 100 time units have passed since the last scroll
signal, collect the indices whose entry has status 0 and remove each from
the container and the table; otherwise do nothing. -/
def rmNodeTick (s : VListState) (now : Nat) : VListState :=
  if 100 < now - s.lastScrolled then
    (s.table.filter (fun p => p.2.status == 0)).foldl rmStep s
  else s

/-- `VirtualList.createScroller`: the invisible full-height track, node
id 0. -/
def createScroller (h : Nat) : NodeData :=
  { textChild := none, display := "", heightPx := some h, top := some 0,
    classes := ["vScroller"] }

/-- The `VirtualList` constructor of src/vlist.js up to wiring the listeners:
container with the scroller as only child, empty table, `lastRepaintY`
undefined, `lastScrolled = 0`, then the initial `_renderChunk(container, 0)`. -/
def initVirtualList (cfg : VConfig) : VListState :=
  let s0 : VListState :=
    { table := [], children := [0],
      heap := [(0, createScroller (cfg.itemHeight * totalRows cfg))],
      nextId := 1, lastRepaintY := none, lastScrolled := 0 }
  renderChunk cfg s0 0

/-- Result of the unnamed variant's `generatorFn`, which can `return
items[i]` directly even when it is not a DOM element (`null`, `0`,
`false`). -/
inductive UGenResult where
  | node : Nat → UGenResult
  | raw : Item → UGenResult
deriving DecidableEq

/-- Default `VirtualList.prototype.generatorFn` of the unnamed variant
(src/unnamed/part_000): `if (items && typeof items[i] !== "undefined")
{ string ? wrap in a div with a text child : return items[i] directly }
else { blank div }`, with `style.height` set after the branch (so not on the
directly returned value). -/
def generatorFnU (items : List Item) (i : Nat) (itemHeight : Nat)
    (s : VListState) : UGenResult × VListState :=
  match items[i]? with
  | some it =>
      if itemIsString it then
        let r := allocNode s
          { textChild := some (itemStr it), display := "",
            heightPx := some itemHeight, top := none, classes := [] }
        (UGenResult.node r.1, r.2)
      else
        match it with
        | Item.elem nid => (UGenResult.node nid, s)
        | _ => (UGenResult.raw it, s)
  | none =>
      let r := allocNode s
        { textChild := none, display := "", heightPx := some itemHeight,
          top := none, classes := [] }
      (UGenResult.node r.1, r.2)

/-- Whether index `i` has an entry with status 1 (Active) in a table. -/
def activeTB (t : List (Nat × Entry)) (i : Nat) : Bool :=
  ((afind t i).map (fun e => e.status == 1)).getD false

/-- Whether index `i` currently has a table entry with status 1 (Active). -/
def activeAt (s : VListState) (i : Nat) : Bool := activeTB s.table i

/-- The indices of the Active entries, in table order. -/
def activesOf (s : VListState) : List Nat :=
  (s.table.filter (fun p => p.2.status == 1)).map (fun p => p.1)

/-- Number of Active entries of a table. -/
def countActive (t : List (Nat × Entry)) : Nat :=
  (t.filter (fun p => p.2.status == 1)).length

/-- The table's keys are pairwise distinct (a JS object cannot hold a key
twice; every reachable table satisfies this). -/
abbrev keysNodup (t : List (Nat × Entry)) : Prop :=
  (t.map (fun p => p.1)).Nodup

/-- Distinct table entries hold distinct node references (in the DOM a node
cannot sit at two places at once). -/
abbrev tableNodesNodup (s : VListState) : Prop :=
  (s.table.map (fun p => p.2.node)).Nodup

/-- Every heap key was allocated below the allocator's cursor. -/
abbrev heapWF (s : VListState) : Prop :=
  ∀ q ∈ s.heap, q.1 < s.nextId

/-- The current Active entries are exactly the indices of `[frm, last)`:
every table entry is Active iff its index lies in the interval, and every
index of the interval has an entry. -/
abbrev activeRangeIs (s : VListState) (frm last : Nat) : Prop :=
  (∀ p ∈ s.table, p.2.status = 1 ↔ (frm ≤ p.1 ∧ p.1 < last)) ∧
  (∀ i ∈ List.range' frm (last - frm), (afind s.table i).isSome = true)

/-- The window-start formula of the specification (§4.2/§8):
`max(0, floor(s / rowHeight) - visibleCount)` with
`visibleCount = ceil(viewportHeight / rowHeight)`. -/
def specWindowFirst (cfg : VConfig) (st : Nat) : Nat :=
  (max 0 (((st / cfg.itemHeight : Nat) : Int) -
    ((ceilDiv cfg.h cfg.itemHeight : Nat) : Int))).toNat

/-- Number of row nodes materialized in the container, excluding the
scroller (node id 0). -/
def rowNodeCount (s : VListState) : Nat :=
  (s.children.filter (fun c => c ≠ 0)).length

/-- The concrete configuration used by the concrete counterexamples:
viewport of one row (`screenItemsLen = 1`), 4 virtual rows, default buffer
`3`, `maxBuffer = 20`. -/
def cfgA : VConfig :=
  { h := 20, itemHeight := 20, items := [], totalRowsOpt := some 4,
    itemBufferOpt := none }

def sA0 : VListState := initVirtualList cfgA

/-- `sA0` after a first scroll signal at offset 60 (time 5): window `[2,4)`,
indices 0 and 1 go Stale. -/
def sA1 : VListState := onScroll cfgA sA0 60 5

/-- `sA0` after scroll signals at offsets 25 (time 1) and 0 (time 2): both
re-plan the unchanged window `[0,3)`. -/
def sB2 : VListState := onScroll cfgA (onScroll cfgA sA0 25 1) 0 2

/-- Items list exercising every default-row-factory branch: a non-empty
string, a pre-built element (node id 42), an empty string and a falsy
number. -/
def cfgB : VConfig :=
  { h := 20, itemHeight := 20,
    items := [Item.text "hello", Item.elem 42, Item.text "", Item.numZero],
    totalRowsOpt := some 6, itemBufferOpt := none }

def sB : VListState := initVirtualList cfgB

/-! ### Association-list lemmas -/

theorem afind_map_val {α β : Type} (f : α → β) :
    ∀ (t : List (Nat × α)) (k : Nat),
      afind (t.map (fun p => (p.1, f p.2))) k = (afind t k).map f := by
  intro t
  induction t with
  | nil => intro k; rfl
  | cons p t ih =>
      intro k
      by_cases h : p.1 = k <;> simp [afind, h, ih]

theorem afind_mem {α : Type} :
    ∀ {t : List (Nat × α)} {k : Nat} {v : α}, afind t k = some v → (k, v) ∈ t := by
  intro t
  induction t with
  | nil => intro k v h; simp [afind] at h
  | cons p t ih =>
      intro k v h
      by_cases hp : p.1 = k
      · simp [afind, hp] at h
        subst hp; subst h
        exact List.mem_cons_self _ _
      · simp [afind, hp] at h
        exact List.mem_cons_of_mem _ (ih h)

theorem afind_eq_none {α : Type} :
    ∀ {t : List (Nat × α)} {k : Nat}, afind t k = none → ∀ p ∈ t, p.1 ≠ k := by
  intro t
  induction t with
  | nil => intro k _ p hp; simp at hp
  | cons q t ih =>
      intro k h p hp
      by_cases hq : q.1 = k
      · simp [afind, hq] at h
      · rcases List.mem_cons.mp hp with rfl | hp'
        · exact hq
        · exact ih (by simpa [afind, hq] using h) p hp'

theorem afind_append_self {α : Type} {h : List (Nat × α)} {n : Nat}
    (hw : ∀ q ∈ h, q.1 ≠ n) (v : α) : afind (h ++ [(n, v)]) n = some v := by
  induction h with
  | nil => simp [afind]
  | cons q t ih =>
      have hq : q.1 ≠ n := hw q (List.mem_cons_self _ _)
      simp only [List.cons_append, afind, hq, if_false]
      exact ih (fun p hp => hw p (List.mem_cons_of_mem _ hp))

theorem afind_append_one_ne {α : Type} {j k : Nat} (hne : j ≠ k) (v : α) :
    ∀ t : List (Nat × α), afind (t ++ [(k, v)]) j = afind t j := by
  intro t
  induction t with
  | nil => simp [afind, Ne.symm hne]
  | cons q t ih =>
      by_cases hq : q.1 = j <;> simp [afind, hq, ih]

theorem map_keep_of_ne {t : List (Nat × Entry)} {k : Nat} {v : Entry}
    (h : ∀ q ∈ t, q.1 ≠ k) :
    t.map (fun q => if q.1 = k then (k, v) else q) = t := by
  induction t with
  | nil => rfl
  | cons p t ih =>
      simp [h p (List.mem_cons_self _ _), ih (fun q hq => h q (List.mem_cons_of_mem _ hq))]

theorem tput_cons_ne {p : Nat × Entry} {t : List (Nat × Entry)} {k : Nat}
    {v : Entry} (h : p.1 ≠ k) : tput (p :: t) k v = p :: tput t k v := by
  cases hf : afind t k <;>
    simp [tput, afind, h, hf]

theorem afind_map_put_ne {j k : Nat} (hne : j ≠ k) (v : Entry) :
    ∀ t : List (Nat × Entry),
      afind (t.map (fun q => if q.1 = k then (k, v) else q)) j = afind t j := by
  intro t
  induction t with
  | nil => rfl
  | cons q t ih =>
      have hkj : ¬(k = j) := Ne.symm hne
      by_cases hq : q.1 = k
      · simp [afind, hq, hkj, ih]
      · by_cases hj : q.1 = j <;> simp [afind, hq, hj, hne, hkj, ih]

theorem afind_tput_self (t : List (Nat × Entry)) (k : Nat) (v : Entry) :
    afind (tput t k v) k = some v := by
  induction t with
  | nil => simp [tput, afind]
  | cons p t ih =>
      by_cases hp : p.1 = k
      · cases hf : afind t k <;>
          simp [tput, afind, hp, hf]
      · rw [tput_cons_ne hp]
        simp [afind, hp, ih]

theorem afind_tput_ne {j k : Nat} (hne : j ≠ k) (t : List (Nat × Entry))
    (v : Entry) : afind (tput t k v) j = afind t j := by
  cases hf : afind t k with
  | some e => simp [tput, hf, afind_map_put_ne hne]
  | none => simp [tput, hf, afind_append_one_ne hne]

/-! ### Structural facts about the row factory and `createRow` -/

theorem generatorFn_table (cfg : VConfig) (s : VListState) (i : Nat) :
    (generatorFn cfg s i).2.table = s.table := by
  unfold generatorFn
  cases cfg.items[i]? with
  | none => rfl
  | some it =>
      by_cases h1 : itemTruthy it <;> by_cases h2 : itemIsString it <;>
        simp [h1, h2, allocNode]

theorem generatorFn_children (cfg : VConfig) (s : VListState) (i : Nat) :
    (generatorFn cfg s i).2.children = s.children := by
  unfold generatorFn
  cases cfg.items[i]? with
  | none => rfl
  | some it =>
      by_cases h1 : itemTruthy it <;> by_cases h2 : itemIsString it <;>
        simp [h1, h2, allocNode]

theorem generatorFn_nextId_le (cfg : VConfig) (s : VListState) (i : Nat) :
    s.nextId ≤ (generatorFn cfg s i).2.nextId := by
  unfold generatorFn
  cases cfg.items[i]? with
  | none => simp [allocNode]
  | some it =>
      by_cases h1 : itemTruthy it <;> by_cases h2 : itemIsString it <;>
        simp [h1, h2, allocNode]

theorem generatorFn_fresh (cfg : VConfig) (s : VListState) (i : Nat)
    (h : isElemItem (cfg.items[i]?) = false) :
    (generatorFn cfg s i).1 = s.nextId ∧
      (generatorFn cfg s i).2.nextId = s.nextId + 1 := by
  unfold generatorFn
  cases hg : cfg.items[i]? with
  | none => simp [allocNode]
  | some it =>
      cases it <;> simp_all [isElemItem, itemTruthy, itemIsString, allocNode] <;>
        split <;> simp [allocNode]

theorem createRow_table (cfg : VConfig) (s : VListState) (i : Nat) :
    (createRow cfg s i).2.table =
      tput s.table i { status := 1, node := (createRow cfg s i).1 } := by
  simp [createRow, generatorFn_table]

theorem createRow_children (cfg : VConfig) (s : VListState) (i : Nat) :
    (createRow cfg s i).2.children = s.children := by
  simp [createRow, generatorFn_children]

theorem createRow_nextId_le (cfg : VConfig) (s : VListState) (i : Nat) :
    s.nextId ≤ (createRow cfg s i).2.nextId := by
  simpa [createRow] using generatorFn_nextId_le cfg s i

theorem createRow_fresh (cfg : VConfig) (s : VListState) (i : Nat)
    (h : isElemItem (cfg.items[i]?) = false) :
    (createRow cfg s i).1 = s.nextId ∧
      (createRow cfg s i).2.nextId = s.nextId + 1 := by
  have hf := generatorFn_fresh cfg s i h
  simpa [createRow] using hf

/-! ### The marking phase -/

theorem markAll_table (s : VListState) :
    (markAll s).table = s.table.map (fun p => (p.1, { p.2 with status := 0 })) := rfl

theorem markAll_nextId (s : VListState) : (markAll s).nextId = s.nextId := rfl

theorem markAll_children (s : VListState) : (markAll s).children = s.children := rfl

theorem afind_mark :
    ∀ (t : List (Nat × Entry)) (k : Nat),
      afind (t.map (fun p => (p.1, { p.2 with status := 0 }))) k =
        (afind t k).map (fun e => { e with status := 0 }) := by
  intro t
  induction t with
  | nil => intro k; rfl
  | cons p t ih =>
      intro k
      by_cases h : p.1 = k <;> simp [afind, h, ih]

theorem activeTB_markAll (s : VListState) (i : Nat) :
    activeTB (markAll s).table i = false := by
  rw [markAll_table]
  unfold activeTB
  rw [afind_mark]
  cases afind s.table i <;> simp

/-! ### The row-creation loop -/

theorem renderRows_children (cfg : VConfig) :
    ∀ (n frm : Nat) (s : VListState),
      (renderRows cfg s frm n).2.children = s.children := by
  intro n
  induction n with
  | zero => intro frm s; rfl
  | succ m ih =>
      intro frm s
      simp [renderRows, ih, createRow_children]

theorem renderRows_nextId_le (cfg : VConfig) :
    ∀ (n frm : Nat) (s : VListState),
      s.nextId ≤ (renderRows cfg s frm n).2.nextId := by
  intro n
  induction n with
  | zero => intro frm s; exact Nat.le_refl _
  | succ m ih =>
      intro frm s
      calc s.nextId ≤ (createRow cfg s frm).2.nextId := createRow_nextId_le cfg s frm
        _ ≤ (renderRows cfg (createRow cfg s frm).2 (frm + 1) m).2.nextId :=
            ih (frm + 1) (createRow cfg s frm).2
        _ = (renderRows cfg s frm (m + 1)).2.nextId := by simp [renderRows]

theorem renderRows_afind_out (cfg : VConfig) :
    ∀ (n frm : Nat) (s : VListState) (j : Nat),
      (j < frm ∨ frm + n ≤ j) →
      afind (renderRows cfg s frm n).2.table j = afind s.table j := by
  intro n
  induction n with
  | zero => intro frm s j _; rfl
  | succ m ih =>
      intro frm s j hj
      have hj' : j < frm + 1 ∨ (frm + 1) + m ≤ j := by omega
      have hne : j ≠ frm := by omega
      calc afind (renderRows cfg s frm (m + 1)).2.table j
          = afind (renderRows cfg (createRow cfg s frm).2 (frm + 1) m).2.table j := by
            simp [renderRows]
        _ = afind (createRow cfg s frm).2.table j := ih (frm + 1) _ j hj'
        _ = afind s.table j := by
            rw [createRow_table]; exact afind_tput_ne hne _ _

theorem renderRows_afind_in (cfg : VConfig) :
    ∀ (n frm : Nat) (s : VListState) (j : Nat),
      frm ≤ j → j < frm + n →
      ∃ nid, afind (renderRows cfg s frm n).2.table j = some { status := 1, node := nid } ∧
        (isElemItem (cfg.items[j]?) = false → s.nextId ≤ nid) := by
  intro n
  induction n with
  | zero => intro frm s j h1 h2; omega
  | succ m ih =>
      intro frm s j h1 h2
      by_cases hj : j = frm
      · subst hj
        refine ⟨(createRow cfg s j).1, ?_, ?_⟩
        · calc afind (renderRows cfg s j (m + 1)).2.table j
              = afind (renderRows cfg (createRow cfg s j).2 (j + 1) m).2.table j := by
                simp [renderRows]
            _ = afind (createRow cfg s j).2.table j :=
                renderRows_afind_out cfg m (j + 1) _ j (Or.inl (Nat.lt_succ_self j))
            _ = some { status := 1, node := (createRow cfg s j).1 } := by
                rw [createRow_table]; exact afind_tput_self _ _ _
        · intro hne
          exact Nat.le_of_eq (createRow_fresh cfg s j hne).1.symm
      · have h1' : frm + 1 ≤ j := by omega
        have h2' : j < (frm + 1) + m := by omega
        obtain ⟨nid, hfind, hfresh⟩ := ih (frm + 1) (createRow cfg s frm).2 j h1' h2'
        refine ⟨nid, ?_, ?_⟩
        · calc afind (renderRows cfg s frm (m + 1)).2.table j
              = afind (renderRows cfg (createRow cfg s frm).2 (frm + 1) m).2.table j := by
                simp [renderRows]
            _ = some { status := 1, node := nid } := hfind
        · intro hne
          exact Nat.le_trans (createRow_nextId_le cfg s frm) (hfresh hne)

/-! ### Counting Active entries -/

theorem tput_cons_eq {p : Nat × Entry} {t : List (Nat × Entry)} {k : Nat}
    {v : Entry} (hp : p.1 = k) (hkt : ∀ q ∈ t, q.1 ≠ k) :
    tput (p :: t) k v = (k, v) :: t := by
  have : afind (p :: t) k = some p.2 := by simp [afind, hp]
  simp only [tput, this, List.map_cons, hp, if_true]
  rw [map_keep_of_ne hkt]

theorem activeTB_tput_ne {j k : Nat} (hne : j ≠ k) (t : List (Nat × Entry))
    (v : Entry) : activeTB (tput t k v) j = activeTB t j := by
  unfold activeTB
  rw [afind_tput_ne hne]

theorem countActive_tput {k : Nat} (v : Entry) (hv : v.status = 1) :
    ∀ t : List (Nat × Entry), keysNodup t → activeTB t k = false →
      countActive (tput t k v) = countActive t + 1 := by
  intro t
  induction t with
  | nil =>
      intro _ _
      simp [tput, afind, countActive, hv]
  | cons p t ih =>
      intro hk hin
      have hk' : keysNodup t := by
        simpa [keysNodup, List.nodup_cons] using And.right (by
          simpa [keysNodup, List.nodup_cons] using hk)
      by_cases hp : p.1 = k
      · have hkt : ∀ q ∈ t, q.1 ≠ k := by
          intro q hq
          have hnotin : p.1 ∉ t.map (fun r => r.1) := by
            simpa [keysNodup, List.nodup_cons] using And.left (by
              simpa [keysNodup, List.nodup_cons] using hk)
          intro hqk
          exact hnotin (by
            rw [hp, ← hqk]
            exact List.mem_map_of_mem _ hq)
        rw [tput_cons_eq hp hkt]
        have hpe : (p.2.status == 1) = false := by
          simpa [activeTB, afind, hp] using hin
        simp [countActive, List.filter_cons, hpe, hv]
      · rw [tput_cons_ne hp]
        have hin' : activeTB t k = false := by
          simpa [activeTB, afind, hp] using hin
        have hrec := ih hk' hin'
        by_cases hps : (p.2.status == 1) = true <;>
          simp [countActive, List.filter_cons, hps] at hrec ⊢ <;> omega

theorem tput_keys_map {k : Nat} {v : Entry} :
    ∀ t : List (Nat × Entry),
      (t.map (fun q => if q.1 = k then (k, v) else q)).map (fun p => p.1) =
        t.map (fun p => p.1) := by
  intro t
  induction t with
  | nil => rfl
  | cons q t ih =>
      by_cases hq : q.1 = k <;> simp [hq, ih]

theorem keysNodup_tput {t : List (Nat × Entry)} {k : Nat} {v : Entry}
    (hk : keysNodup t) : keysNodup (tput t k v) := by
  cases hf : afind t k with
  | some e =>
      unfold keysNodup
      simp only [tput, hf]
      rw [tput_keys_map]
      exact hk
  | none =>
      have hnot : k ∉ t.map (fun p => p.1) := by
        intro hmem
        obtain ⟨p, hp, hpk⟩ := List.mem_map.mp hmem
        exact afind_eq_none hf p hp hpk
      unfold keysNodup
      simp [tput, hf, List.nodup_append, hnot, hk]

theorem countActive_mark :
    ∀ t : List (Nat × Entry),
      countActive (t.map (fun p => (p.1, { p.2 with status := 0 }))) = 0 := by
  intro t
  induction t with
  | nil => rfl
  | cons p t ih => simpa [countActive, List.filter_cons] using ih

theorem mark_keys_map :
    ∀ t : List (Nat × Entry),
      (t.map (fun p => (p.1, { p.2 with status := 0 }))).map (fun p => p.1) =
        t.map (fun p => p.1) := by
  intro t
  induction t with
  | nil => rfl
  | cons p t ih => simp [ih]

theorem keysNodup_markAll {s : VListState} (hk : keysNodup s.table) :
    keysNodup (markAll s).table := by
  rw [markAll_table]
  unfold keysNodup
  rw [mark_keys_map]
  exact hk

theorem renderRows_count (cfg : VConfig) :
    ∀ (n frm : Nat) (s : VListState), keysNodup s.table →
      (∀ j, frm ≤ j → activeTB s.table j = false) →
      countActive (renderRows cfg s frm n).2.table = n + countActive s.table ∧
        keysNodup (renderRows cfg s frm n).2.table := by
  intro n
  induction n with
  | zero =>
      intro frm s hk _
      exact ⟨by simp [renderRows], hk⟩
  | succ m ih =>
      intro frm s hk hin
      have hc1 : countActive (createRow cfg s frm).2.table = countActive s.table + 1 := by
        rw [createRow_table]
        exact countActive_tput _ rfl s.table hk (hin frm (Nat.le_refl frm))
      have hk1 : keysNodup (createRow cfg s frm).2.table := by
        rw [createRow_table]
        exact keysNodup_tput hk
      have hin1 : ∀ j, frm + 1 ≤ j → activeTB (createRow cfg s frm).2.table j = false := by
        intro j hj
        rw [createRow_table, activeTB_tput_ne (by omega)]
        exact hin j (by omega)
      obtain ⟨hcnt, hnd⟩ := ih (frm + 1) (createRow cfg s frm).2 hk1 hin1
      constructor
      · calc countActive (renderRows cfg s frm (m + 1)).2.table
            = countActive (renderRows cfg (createRow cfg s frm).2 (frm + 1) m).2.table := by
              simp [renderRows]
          _ = m + countActive (createRow cfg s frm).2.table := hcnt
          _ = m + (countActive s.table + 1) := by rw [hc1]
          _ = (m + 1) + countActive s.table := by omega
      · have heq : (renderRows cfg s frm (m + 1)).2.table =
            (renderRows cfg (createRow cfg s frm).2 (frm + 1) m).2.table := by
          simp [renderRows]
        unfold keysNodup
        rw [heq]
        exact hnd

/-! ### The re-plan as a whole -/

theorem renderChunk_table (cfg : VConfig) (s : VListState) (frm : Nat) :
    (renderChunk cfg s frm).table =
      (renderRows cfg (markAll s) frm (lastOf cfg frm - frm)).2.table := rfl

theorem lastOf_eq_min (cfg : VConfig) (frm : Nat) :
    lastOf cfg frm = min (totalRows cfg) (frm + cachedItemsLen cfg) := by
  unfold lastOf
  split <;> omega

theorem plannedFirst_eq_spec (cfg : VConfig) (st : Nat) :
    plannedFirst cfg st = specWindowFirst cfg st := by
  unfold plannedFirst specWindowFirst screenItemsLen
  split <;> omega

theorem renderChunk_nextId (cfg : VConfig) (s : VListState) (frm : Nat) :
    s.nextId ≤ (renderChunk cfg s frm).nextId := by
  have h := renderRows_nextId_le cfg (lastOf cfg frm - frm) frm (markAll s)
  rw [markAll_nextId] at h
  exact h

theorem renderChunk_activeTB (cfg : VConfig) (s : VListState) (frm i : Nat) :
    activeTB (renderChunk cfg s frm).table i = true ↔
      frm ≤ i ∧ i < lastOf cfg frm := by
  rw [renderChunk_table]
  by_cases h : frm ≤ i ∧ i < frm + (lastOf cfg frm - frm)
  · obtain ⟨nid, hfind, _⟩ :=
      renderRows_afind_in cfg (lastOf cfg frm - frm) frm (markAll s) i h.1 h.2
    rw [activeTB, hfind]
    simp
    omega
  · have hout : i < frm ∨ frm + (lastOf cfg frm - frm) ≤ i := by omega
    have := renderRows_afind_out cfg (lastOf cfg frm - frm) frm (markAll s) i hout
    rw [activeTB, this]
    have hm := activeTB_markAll s i
    rw [activeTB] at hm
    rw [hm]
    constructor
    · intro hfalse; cases hfalse
    · intro hrange; omega

theorem renderChunk_count (cfg : VConfig) (s : VListState) (frm : Nat)
    (hk : keysNodup s.table) :
    countActive (renderChunk cfg s frm).table = lastOf cfg frm - frm := by
  have h0 : keysNodup (markAll s).table := keysNodup_markAll hk
  have hin : ∀ j, frm ≤ j → activeTB (markAll s).table j = false :=
    fun j _ => activeTB_markAll s j
  have hc := (renderRows_count cfg (lastOf cfg frm - frm) frm (markAll s) h0 hin).1
  rw [renderChunk_table, hc, markAll_table, countActive_mark]
  omega

/-! ### The reclamation sweep -/

theorem rmFold_table :
    ∀ (l : List (Nat × Entry)) (s0 : VListState),
      (l.foldl rmStep s0).table =
        s0.table.filter (fun q => decide (∀ b ∈ l, q.1 ≠ b.1)) := by
  intro l
  induction l with
  | nil => intro s0; simp
  | cons b l ih =>
      intro s0
      rw [List.foldl_cons, ih]
      show (s0.table.filter (fun q => decide (q.1 ≠ b.1))).filter
          (fun q => decide (∀ x ∈ l, q.1 ≠ x.1)) = _
      rw [List.filter_filter]
      apply List.filter_congr
      intro a _
      rw [← Bool.decide_and]
      apply decide_eq_decide.mpr
      rw [List.forall_mem_cons]
      tauto

theorem rmFold_children :
    ∀ (l : List (Nat × Entry)) (s0 : VListState),
      (l.foldl rmStep s0).children =
        s0.children.filter (fun c => decide (∀ b ∈ l, c ≠ b.2.node)) := by
  intro l
  induction l with
  | nil => intro s0; simp
  | cons b l ih =>
      intro s0
      rw [List.foldl_cons, ih]
      show (s0.children.filter (fun c => decide (c ≠ b.2.node))).filter
          (fun c => decide (∀ x ∈ l, c ≠ x.2.node)) = _
      rw [List.filter_filter]
      apply List.filter_congr
      intro a _
      rw [← Bool.decide_and]
      apply decide_eq_decide.mpr
      rw [List.forall_mem_cons]
      tauto

theorem rmNodeTick_table_settled {s : VListState} {now : Nat}
    (h : 100 < now - s.lastScrolled) :
    (rmNodeTick s now).table =
      s.table.filter (fun q =>
        decide (∀ b ∈ s.table.filter (fun p : Nat × Entry => p.2.status == 0), q.1 ≠ b.1)) := by
  unfold rmNodeTick
  rw [if_pos h, rmFold_table]

theorem rmNodeTick_children_settled {s : VListState} {now : Nat}
    (h : 100 < now - s.lastScrolled) :
    (rmNodeTick s now).children =
      s.children.filter (fun c =>
        decide (∀ b ∈ s.table.filter (fun p : Nat × Entry => p.2.status == 0), c ≠ b.2.node)) := by
  unfold rmNodeTick
  rw [if_pos h, rmFold_children]

theorem rmNodeTick_not_settled {s : VListState} {now : Nat}
    (h : ¬ 100 < now - s.lastScrolled) : rmNodeTick s now = s := by
  unfold rmNodeTick
  rw [if_neg h]

/-! ### Claim C1 -/

/-- C1: for every scroll offset `st` that triggers a re-plan, the set of
indices with status Active afterwards equals the contiguous interval
`[max(0, floor(st/rowHeight) - visibleCount), min(totalRows, first +
bufferSize))` with `visibleCount = ceil(viewportHeight/rowHeight)`; in
particular the Active range is clamped to `[0, totalRows)`. -/
theorem c1_active_window_eq_planned_interval (cfg : VConfig) (s : VListState)
    (st now i : Nat) (hih : 0 < cfg.itemHeight)
    (htr : scrollTriggers cfg s st = true) :
    (activeAt (onScroll cfg s st now) i = true ↔
      (specWindowFirst cfg st ≤ i ∧
        i < min (totalRows cfg) (specWindowFirst cfg st + cachedItemsLen cfg))) ∧
    (activeAt (onScroll cfg s st now) i = true → i < totalRows cfg) := by
  have htab : (onScroll cfg s st now).table =
      (renderChunk cfg s (plannedFirst cfg st)).table := by
    simp [onScroll, htr]
  have hact : activeAt (onScroll cfg s st now) i =
      activeTB (renderChunk cfg s (plannedFirst cfg st)).table i := by
    unfold activeAt
    rw [htab]
  have hchar := renderChunk_activeTB cfg s (plannedFirst cfg st) i
  rw [lastOf_eq_min] at hchar
  rw [hact, ← plannedFirst_eq_spec cfg st]
  refine ⟨hchar, ?_⟩
  intro hA
  have := (hchar.mp hA).2
  omega

/-- Witness for C1: the concrete list `cfgA`, first scroll signal at offset
60, index 2 lies in the planned window `[2,4)`. -/
theorem c1_active_window_witness :
    (0 < cfgA.itemHeight ∧ scrollTriggers cfgA sA0 60 = true) ∧
    ((activeAt (onScroll cfgA sA0 60 5) 2 = true ↔
      (specWindowFirst cfgA 60 ≤ 2 ∧
        2 < min (totalRows cfgA) (specWindowFirst cfgA 60 + cachedItemsLen cfgA))) ∧
    (activeAt (onScroll cfgA sA0 60 5) 2 = true → 2 < totalRows cfgA)) :=
  ⟨⟨by decide, by decide⟩,
    c1_active_window_eq_planned_interval cfgA sA0 60 5 2 (by decide) (by decide)⟩

/-! ### Claim C2 -/

/-- C2 counterexample: with 4 total rows, buffer 3, a re-plan anchored at
offset 60 plans the truncated window `[2,4)`, so only 2 entries are Active,
not `min(bufferSize, totalRows) = 3` as the claim states. -/
theorem c2_count_counterexample :
    scrollTriggers cfgA sA0 60 = true ∧
    countActive (onScroll cfgA sA0 60 5).table = 2 ∧
    min (cachedItemsLen cfgA) (totalRows cfgA) = 3 := by decide

/-- C2 amended: after every re-plan the number of Active entries equals
`min(bufferSize, totalRows - first)` for the clamped window start `first`
(which can be below `min(bufferSize, totalRows)` near the end of the list),
and it never exceeds `min(bufferSize, totalRows)`. -/
theorem c2_amended_active_count (cfg : VConfig) (s : VListState) (st now : Nat)
    (hk : keysNodup s.table) (htr : scrollTriggers cfg s st = true) :
    countActive (onScroll cfg s st now).table =
      min (cachedItemsLen cfg) (totalRows cfg - plannedFirst cfg st) ∧
    countActive (onScroll cfg s st now).table ≤
      min (cachedItemsLen cfg) (totalRows cfg) := by
  have htab : (onScroll cfg s st now).table =
      (renderChunk cfg s (plannedFirst cfg st)).table := by
    simp [onScroll, htr]
  rw [htab, renderChunk_count cfg s (plannedFirst cfg st) hk, lastOf_eq_min]
  omega

/-- Witness for the amended C2 at `cfgA`, first signal at offset 60. -/
theorem c2_amended_witness :
    (keysNodup sA0.table ∧ scrollTriggers cfgA sA0 60 = true) ∧
    (countActive (onScroll cfgA sA0 60 5).table =
        min (cachedItemsLen cfgA) (totalRows cfgA - plannedFirst cfgA 60) ∧
      countActive (onScroll cfgA sA0 60 5).table ≤
        min (cachedItemsLen cfgA) (totalRows cfgA)) :=
  ⟨⟨by decide, by decide⟩,
    c2_amended_active_count cfgA sA0 60 5 (by decide) (by decide)⟩

/-! ### Claim C3 -/

/-- C3 counterexample: at `sA0` the Active range is `[0,3)` and a triggering
scroll to offset 25 plans the very same range `[0,3)`; the claim says this is
a no-op, but the container grows from 4 to 7 children and the entry of
index 0 is rebound from node 1 to a newly created node 4. -/
theorem c3_noop_counterexample :
    plannedFirst cfgA 25 = 0 ∧ lastOf cfgA 0 = 3 ∧
    activesOf sA0 = [0, 1, 2] ∧
    scrollTriggers cfgA sA0 25 = true ∧
    sA0.children.length = 4 ∧
    (onScroll cfgA sA0 25 5).children.length = 7 ∧
    afind sA0.table 0 = some { status := 1, node := 1 } ∧
    afind (onScroll cfgA sA0 25 5).table 0 = some { status := 1, node := 4 } := by
  decide

/-- C3 amended: re-planning with an anchor offset that yields the current
Active range leaves the set of Active indices unchanged, but it is not a
no-op: every index of the range is re-produced by the Row Factory, and every
row not backed by a pre-built element is rebound to a freshly allocated node
(the old nodes stay behind in the container). -/
theorem c3_amended_same_range_replan (cfg : VConfig) (s : VListState) (frm : Nat)
    (hrange : activeRangeIs s frm (lastOf cfg frm)) :
    (∀ j, activeAt (renderChunk cfg s frm) j = activeAt s j) ∧
    (∀ j, frm ≤ j → j < lastOf cfg frm → isElemItem (cfg.items[j]?) = false →
      ∃ nid, afind (renderChunk cfg s frm).table j = some { status := 1, node := nid } ∧
        s.nextId ≤ nid) := by
  obtain ⟨h1, h2⟩ := hrange
  constructor
  · intro j
    have hL := renderChunk_activeTB cfg s frm j
    have hR : activeAt s j = true ↔ (frm ≤ j ∧ j < lastOf cfg frm) := by
      unfold activeAt activeTB
      cases hf : afind s.table j with
      | some e =>
          have hmem := afind_mem hf
          have he := h1 (j, e) hmem
          simpa using he
      | none =>
          refine iff_of_false (by simp) ?_
          intro hr
          have hs := h2 j (List.mem_range'_1.mpr (by omega))
          rw [hf] at hs
          exact absurd hs (by simp)
    apply Bool.eq_iff_iff.mpr
    rw [hR]
    unfold activeAt
    exact hL
  · intro j hj1 hj2 hne
    obtain ⟨nid, hfind, hfresh⟩ :=
      renderRows_afind_in cfg (lastOf cfg frm - frm) frm (markAll s) j
        hj1 (by omega)
    refine ⟨nid, ?_, ?_⟩
    · rw [renderChunk_table]
      exact hfind
    · have hle := hfresh hne
      rw [markAll_nextId] at hle
      exact hle

/-- Witness for the amended C3: `sA0` has Active range `[0,3)` and a re-plan
of the same range keeps index 0 Active while rebinding it to a fresh node. -/
theorem c3_amended_witness :
    activeRangeIs sA0 0 (lastOf cfgA 0) ∧
    (activeAt (renderChunk cfgA sA0 0) 0 = activeAt sA0 0 ∧
      ∃ nid, afind (renderChunk cfgA sA0 0).table 0 = some { status := 1, node := nid } ∧
        sA0.nextId ≤ nid) :=
  ⟨by decide,
    (c3_amended_same_range_replan cfgA sA0 0 (by decide)).1 0,
    (c3_amended_same_range_replan cfgA sA0 0 (by decide)).2 0 (by decide)
      (by decide) (by decide)⟩

/-! ### Claim C4 -/

/-- C4 counterexample: in `sA1` index 0 is Stale with node 1; a triggering
scroll back to offset 0 plans `[0,3)`, which contains 0, but instead of
flipping the entry back to Active with its existing node the code rebinds it
to the freshly created node 6. -/
theorem c4_resurrection_counterexample :
    afind sA1.table 0 = some { status := 0, node := 1 } ∧
    scrollTriggers cfgA sA1 0 = true ∧
    plannedFirst cfgA 0 = 0 ∧ lastOf cfgA 0 = 3 ∧
    afind (onScroll cfgA sA1 0 10).table 0 = some { status := 1, node := 6 } := by
  decide

/-- C4 amended: during a re-plan the Row Factory runs for every index of the
new range, also for indices already present in the table; an existing entry
(Active or Stale) whose index lies in the new range and whose backing item is
not a pre-built element is overwritten with a freshly created node instead of
being resurrected with its existing one. -/
theorem c4_amended_factory_always_runs (cfg : VConfig) (s : VListState)
    (frm i : Nat) (e₀ : Entry) (hi1 : frm ≤ i) (hi2 : i < lastOf cfg frm)
    (hne : isElemItem (cfg.items[i]?) = false)
    (hold : afind s.table i = some e₀) (hid : e₀.node < s.nextId) :
    ∃ nid, afind (renderChunk cfg s frm).table i = some { status := 1, node := nid } ∧
      nid ≠ e₀.node := by
  obtain ⟨nid, hfind, hfresh⟩ :=
    renderRows_afind_in cfg (lastOf cfg frm - frm) frm (markAll s) i hi1 (by omega)
  refine ⟨nid, ?_, ?_⟩
  · rw [renderChunk_table]
    exact hfind
  · have hle := hfresh hne
    rw [markAll_nextId] at hle
    omega

/-- Witness for the amended C4: the Stale entry of index 0 in `sA1` (node 1)
is overwritten by a re-plan of `[0,3)` with a fresh node. -/
theorem c4_amended_witness :
    ((0 : Nat) ≤ 0 ∧ 0 < lastOf cfgA 0 ∧ isElemItem (cfgA.items[0]?) = false ∧
      afind sA1.table 0 = some { status := 0, node := 1 } ∧
      ({ status := 0, node := 1 } : Entry).node < sA1.nextId) ∧
    (∃ nid, afind (renderChunk cfgA sA1 0).table 0 = some { status := 1, node := nid } ∧
      nid ≠ ({ status := 0, node := 1 } : Entry).node) :=
  ⟨⟨by decide, by decide, by decide, by decide, by decide⟩,
    c4_amended_factory_always_runs cfgA sA1 0 0 { status := 0, node := 1 }
      (by decide) (by decide) (by decide) (by decide) (by decide)⟩

/-! ### Claim C5 -/

/-- C5: evaluation at the failing input.  After the initial render and two
same-range re-plans (offsets 25 and 0), `sB2`'s container holds 9 row nodes,
three windows' worth, exceeding the claimed bound
`2 * min(bufferSize, totalRows) = 6`; the overwritten table entries no
longer track the 6 hidden nodes, so even a settled reclamation sweep at time
200 removes none of them and the excess persists forever. -/
theorem c5_node_count_exceeds_two_windows :
    rowNodeCount sB2 = 9 ∧
    2 * min (cachedItemsLen cfgA) (totalRows cfgA) = 6 ∧
    100 < 200 - sB2.lastScrolled ∧
    rowNodeCount (rmNodeTick sB2 200) = 9 := by decide

/-! ### Claim C6 -/

/-- C6 counterexample: after triggering re-plans at offsets 25 and 0, the
anchor holds 0; the next signal at offset 1 has displacement 1 ≤ maxBuffer and
is not the first signal, so the claim says that no windowing action is taken,
yet `!lastRepaintY` is true for the falsy anchor 0 and the planner runs
(children grow from 10 to 13 and the anchor moves to 1). -/
theorem c6_trigger_counterexample :
    sB2.lastRepaintY = some 0 ∧
    displacement sB2 1 ≤ maxBuffer cfgA ∧
    sB2.children.length = 10 ∧
    (onScroll cfgA sB2 1 3).children.length = 13 ∧
    (onScroll cfgA sB2 1 3).lastRepaintY = some 1 := by decide

/-- C6 amended: a scroll signal triggers the Window Planner (re-render with
the planned first index, anchor updated to the current offset) iff the anchor
is unset (first signal), or the stored anchor equals 0 (a falsy anchor), or
the displacement from the anchor exceeds `maxBuffer`; otherwise only
`lastScrolled` is updated. -/
theorem c6_amended_trigger_condition (cfg : VConfig) (s : VListState)
    (st now : Nat) :
    (scrollTriggers cfg s st = true ↔
      (s.lastRepaintY = none ∨ s.lastRepaintY = some 0 ∨
        maxBuffer cfg < displacement s st)) ∧
    (scrollTriggers cfg s st = true →
      onScroll cfg s st now =
        { renderChunk cfg s (plannedFirst cfg st) with
          lastRepaintY := some st, lastScrolled := now }) ∧
    (scrollTriggers cfg s st = false →
      onScroll cfg s st now = { s with lastScrolled := now }) := by
  refine ⟨?_, ?_, ?_⟩
  · unfold scrollTriggers jsFalsyNum
    cases s.lastRepaintY with
    | none => simp
    | some y => simp
  · intro htr
    simp [onScroll, htr]
  · intro htr
    simp [onScroll, htr]

/-- Witness for the amended C6 at `sB2` (anchor 0), offset 1. -/
theorem c6_amended_witness :
    (scrollTriggers cfgA sB2 1 = true ↔
      (sB2.lastRepaintY = none ∨ sB2.lastRepaintY = some 0 ∨
        maxBuffer cfgA < displacement sB2 1)) ∧
    (scrollTriggers cfgA sB2 1 = true →
      onScroll cfgA sB2 1 3 =
        { renderChunk cfgA sB2 (plannedFirst cfgA 1) with
          lastRepaintY := some 1, lastScrolled := 3 }) ∧
    (scrollTriggers cfgA sB2 1 = false →
      onScroll cfgA sB2 1 3 = { sB2 with lastScrolled := 3 }) :=
  c6_amended_trigger_condition cfgA sB2 1 3

/-! ### Claims C7 and C8 -/

theorem sweep_keeps_active {s : VListState} {now : Nat} {p : Nat × Entry}
    (hsettle : 100 < now - s.lastScrolled) (hmem : p ∈ s.table)
    (hst : p.2.status = 1) (hk : keysNodup s.table) (hn : tableNodesNodup s) :
    p ∈ (rmNodeTick s now).table ∧
      (p.2.node ∈ s.children → p.2.node ∈ (rmNodeTick s now).children) := by
  constructor
  · rw [rmNodeTick_table_settled hsettle]
    refine List.mem_filter.mpr ⟨hmem, decide_eq_true ?_⟩
    intro b hb
    have hb' := List.mem_filter.mp hb
    intro hkeq
    have hbe : b = p :=
      List.inj_on_of_nodup_map hk hb'.1 hmem hkeq.symm
    rw [hbe] at hb'
    have : p.2.status = 0 := by simpa using hb'.2
    omega
  · intro hc
    rw [rmNodeTick_children_settled hsettle]
    refine List.mem_filter.mpr ⟨hc, decide_eq_true ?_⟩
    intro b hb
    have hb' := List.mem_filter.mp hb
    intro hneq
    have hbe : b = p :=
      List.inj_on_of_nodup_map hn hb'.1 hmem hneq.symm
    rw [hbe] at hb'
    have : p.2.status = 0 := by simpa using hb'.2
    omega

/-- C7: when the reclamation tick fires more than 100 time units after the
last scroll signal, every Stale entry is removed from the table and its node
from the visual tree while Active entries and their nodes are left in place;
when a scroll signal was seen within the threshold, the tick changes
nothing. -/
theorem c7_reclamation_sweep (s : VListState) (now : Nat) (p : Nat × Entry)
    (hmem : p ∈ s.table) (hk : keysNodup s.table) (hn : tableNodesNodup s) :
    (100 < now - s.lastScrolled →
      (p.2.status = 0 →
        p.1 ∉ (rmNodeTick s now).table.map (fun q => q.1) ∧
        p.2.node ∉ (rmNodeTick s now).children) ∧
      (p.2.status = 1 →
        p ∈ (rmNodeTick s now).table ∧
        (p.2.node ∈ s.children → p.2.node ∈ (rmNodeTick s now).children))) ∧
    (¬ 100 < now - s.lastScrolled → rmNodeTick s now = s) := by
  constructor
  · intro hsettle
    constructor
    · intro hst
      have hpbad : p ∈ s.table.filter (fun p : Nat × Entry => p.2.status == 0) :=
        List.mem_filter.mpr ⟨hmem, by simp [hst]⟩
      constructor
      · intro hinmap
        rw [rmNodeTick_table_settled hsettle] at hinmap
        obtain ⟨q, hq, hqk⟩ := List.mem_map.mp hinmap
        have hq' := List.mem_filter.mp hq
        have hdec := of_decide_eq_true hq'.2
        exact absurd hqk (hdec p hpbad)
      · intro hinch
        rw [rmNodeTick_children_settled hsettle] at hinch
        have hdec := of_decide_eq_true (List.mem_filter.mp hinch).2
        exact absurd rfl (hdec p hpbad)
    · intro hst
      exact sweep_keeps_active hsettle hmem hst hk hn
  · exact rmNodeTick_not_settled

/-- Witness for C7: a settled tick at time 200 over `sA1` (Stale entries 0
and 1, Active entries 2 and 3), instantiated at the Stale entry of index 0. -/
theorem c7_reclamation_witness :
    ((0, ({ status := 0, node := 1 } : Entry)) ∈ sA1.table ∧
      keysNodup sA1.table ∧ tableNodesNodup sA1) ∧
    ((100 < 200 - sA1.lastScrolled →
      (({ status := 0, node := 1 } : Entry).status = 0 →
        (0 : Nat) ∉ (rmNodeTick sA1 200).table.map (fun q => q.1) ∧
        ({ status := 0, node := 1 } : Entry).node ∉ (rmNodeTick sA1 200).children) ∧
      (({ status := 0, node := 1 } : Entry).status = 1 →
        (0, ({ status := 0, node := 1 } : Entry)) ∈ (rmNodeTick sA1 200).table ∧
        (({ status := 0, node := 1 } : Entry).node ∈ sA1.children →
          ({ status := 0, node := 1 } : Entry).node ∈ (rmNodeTick sA1 200).children))) ∧
    (¬ 100 < 200 - sA1.lastScrolled → rmNodeTick sA1 200 = sA1)) :=
  ⟨⟨by decide, by decide, by decide⟩,
    c7_reclamation_sweep sA1 200 (0, { status := 0, node := 1 })
      (by decide) (by decide) (by decide)⟩

/-- C8: under any interleaving of scroll signals and reclamation ticks, an
entry whose status is Active at the moment a sweep runs — including one that
became Active again through an intervening plan — is never removed from the
table nor is its node removed from the visual tree by that sweep. -/
theorem c8_active_entry_survives_sweep (s : VListState) (now : Nat)
    (p : Nat × Entry) (hmem : p ∈ s.table) (hst : p.2.status = 1)
    (hk : keysNodup s.table) (hn : tableNodesNodup s) :
    p ∈ (rmNodeTick s now).table ∧
      (p.2.node ∈ s.children → p.2.node ∈ (rmNodeTick s now).children) := by
  by_cases hsettle : 100 < now - s.lastScrolled
  · exact sweep_keeps_active hsettle hmem hst hk hn
  · rw [rmNodeTick_not_settled hsettle]
    exact ⟨hmem, fun h => h⟩

/-- Witness for C8: the Active entry of index 2 in `sA1` (node 4) survives
the settled sweep at time 200 in both table and tree. -/
theorem c8_active_survives_witness :
    ((2, ({ status := 1, node := 4 } : Entry)) ∈ sA1.table ∧
      ({ status := 1, node := 4 } : Entry).status = 1 ∧
      keysNodup sA1.table ∧ tableNodesNodup sA1) ∧
    ((2, ({ status := 1, node := 4 } : Entry)) ∈ (rmNodeTick sA1 200).table ∧
      (({ status := 1, node := 4 } : Entry).node ∈ sA1.children →
        ({ status := 1, node := 4 } : Entry).node ∈ (rmNodeTick sA1 200).children)) :=
  ⟨⟨by decide, by decide, by decide, by decide⟩,
    c8_active_entry_survives_sweep sA1 200 (2, { status := 1, node := 4 })
      (by decide) (by decide) (by decide) (by decide)⟩

/-! ### Claim C9 -/

/-- C9: the default Row Factory of src/vlist.js yields, for a string item, a
generated container whose text content equals the item (an empty string item
yields the empty placeholder, whose text content is likewise the empty
string); for a pre-built element item, that exact node reference-identically
with the state (hence the node's content) untouched; and for an absent item
within `totalRows`, an empty placeholder container. -/
theorem c9_default_row_factory (cfg : VConfig) (s : VListState)
    (hwf : heapWF s) :
    (∀ i str, cfg.items[i]? = some (Item.text str) →
      ((afind (generatorFn cfg s i).2.heap (generatorFn cfg s i).1).map
        (fun nd => nd.textChild.getD "")) = some str) ∧
    (∀ i nid, cfg.items[i]? = some (Item.elem nid) →
      generatorFn cfg s i = (nid, s)) ∧
    (∀ i, i < totalRows cfg → cfg.items[i]? = none →
      afind (generatorFn cfg s i).2.heap (generatorFn cfg s i).1 =
        some (blankDiv cfg)) := by
  have hfind : ∀ nd : NodeData,
      afind (s.heap ++ [(s.nextId, nd)]) s.nextId = some nd := fun nd =>
    afind_append_self (fun q hq => Nat.ne_of_lt (hwf q hq)) nd
  refine ⟨?_, ?_, ?_⟩
  · intro i str hi
    by_cases hs : str = ""
    · subst hs
      simp [generatorFn, hi, itemTruthy, allocNode, hfind, blankDiv]
    · simp [generatorFn, hi, itemTruthy, itemIsString, itemStr, hs, allocNode,
        hfind, textDiv]
  · intro i nid hi
    simp [generatorFn, hi, itemTruthy, itemIsString, itemElemId]
  · intro i _ hi
    simp [generatorFn, hi, allocNode, hfind]

/-- Witness for C9 over `cfgB`: index 0 carries the string item, index 1 the
pre-built element 42, index 4 is absent but within the 6 total rows. -/
theorem c9_row_factory_witness :
    heapWF sB ∧
    (((afind (generatorFn cfgB sB 0).2.heap (generatorFn cfgB sB 0).1).map
        (fun nd => nd.textChild.getD "")) = some "hello" ∧
      generatorFn cfgB sB 1 = (42, sB) ∧
      afind (generatorFn cfgB sB 4).2.heap (generatorFn cfgB sB 4).1 =
        some (blankDiv cfgB)) :=
  ⟨by decide,
    (c9_default_row_factory cfgB sB (by decide)).1 0 "hello" (by decide),
    (c9_default_row_factory cfgB sB (by decide)).2.1 1 42 (by decide),
    (c9_default_row_factory cfgB sB (by decide)).2.2 4 (by decide) (by decide)⟩

/-! ### Claim C10 -/

/-- C10: the vlist.js default factory tests the backing item by truthiness,
so every falsy item (empty string, 0, null, false) at an in-range index
yields a fresh empty placeholder div of height `itemHeight` rather than a
node carrying the item's content; the unnamed variant tests
`typeof items[i] !== "undefined"`, so for the empty string it builds a node
bearing a text child while vlist.js builds the bare placeholder, and for
falsy non-string items it returns the raw value directly. -/
theorem c10_truthiness_divergence (cfg : VConfig) (s : VListState)
    (hwf : heapWF s) :
    (∀ i it, cfg.items[i]? = some it → itemTruthy it = false →
      i < totalRows cfg →
      (generatorFn cfg s i).1 = s.nextId ∧
      afind (generatorFn cfg s i).2.heap s.nextId = some (blankDiv cfg)) ∧
    (∀ i, cfg.items[i]? = some (Item.text "") →
      (generatorFnU cfg.items i cfg.itemHeight s).1 = UGenResult.node s.nextId ∧
      afind (generatorFnU cfg.items i cfg.itemHeight s).2.heap s.nextId =
        some { textChild := some "", display := "",
               heightPx := some cfg.itemHeight, top := none, classes := [] } ∧
      afind (generatorFn cfg s i).2.heap s.nextId = some (blankDiv cfg)) ∧
    (∀ i it, cfg.items[i]? = some it → itemTruthy it = false →
      itemIsString it = false →
      (generatorFnU cfg.items i cfg.itemHeight s).1 = UGenResult.raw it) := by
  have hfind : ∀ nd : NodeData,
      afind (s.heap ++ [(s.nextId, nd)]) s.nextId = some nd := fun nd =>
    afind_append_self (fun q hq => Nat.ne_of_lt (hwf q hq)) nd
  refine ⟨?_, ?_, ?_⟩
  · intro i it hi hfalsy _
    simp [generatorFn, hi, hfalsy, allocNode, hfind]
  · intro i hi
    refine ⟨?_, ?_, ?_⟩
    · simp [generatorFnU, hi, itemIsString, allocNode]
    · simp [generatorFnU, hi, itemIsString, itemStr, allocNode, hfind]
    · simp [generatorFn, hi, itemTruthy, allocNode, hfind]
  · intro i it hi hfalsy hnstr
    cases it <;> simp_all [generatorFnU, itemTruthy, itemIsString]

/-- Witness for C10 over `cfgB`: index 3 carries the falsy number 0, index 2
the empty string. -/
theorem c10_divergence_witness :
    heapWF sB ∧
    (((generatorFn cfgB sB 3).1 = sB.nextId ∧
      afind (generatorFn cfgB sB 3).2.heap sB.nextId = some (blankDiv cfgB)) ∧
    ((generatorFnU cfgB.items 2 cfgB.itemHeight sB).1 = UGenResult.node sB.nextId ∧
      afind (generatorFnU cfgB.items 2 cfgB.itemHeight sB).2.heap sB.nextId =
        some { textChild := some "", display := "",
               heightPx := some cfgB.itemHeight, top := none, classes := [] } ∧
      afind (generatorFn cfgB sB 2).2.heap sB.nextId = some (blankDiv cfgB)) ∧
    (generatorFnU cfgB.items 3 cfgB.itemHeight sB).1 =
      UGenResult.raw Item.numZero) :=
  ⟨by decide,
    (c10_truthiness_divergence cfgB sB (by decide)).1 3 Item.numZero
      (by decide) (by decide) (by decide),
    (c10_truthiness_divergence cfgB sB (by decide)).2.1 2 (by decide),
    (c10_truthiness_divergence cfgB sB (by decide)).2.2 3 Item.numZero
      (by decide) (by decide) (by decide)⟩

end VirtualList
